import Mathlib

/-!
Shallow embedding of `scripts/soak/analyze-soak-telemetry.py`.

JSON values are modelled by `JVal`; JSON numbers are restricted to the
integers actually carried by the telemetry (the script only ever applies
`int(...)` to them), and Python `float` ratios are modelled over `ℚ`.
Python `dict`s appearing in records are modelled as association lists.
-/

/-- JSON-ish value universe for parsed telemetry records. -/
inductive JVal where
  | jnull : JVal
  | jbool : Bool → JVal
  | jint : Int → JVal
  | jstr : String → JVal
  | jarr : List JVal → JVal
  | jobj : List (String × JVal) → JVal

/-- A parsed NDJSON record (a Python `dict`). -/
def Row : Type := List (String × JVal)

/-- Python truthiness of a JSON value. -/
def pyTruthy : JVal → Bool
  | .jnull => false
  | .jbool b => b
  | .jint n => decide (n ≠ 0)
  | .jstr s => !s.isEmpty
  | .jarr xs => !xs.isEmpty
  | .jobj fs => !fs.isEmpty

mutual

/-- Python `repr` of a JSON value (string quoting approximated, escapes elided). -/
def pyRepr : JVal → String
  | .jnull => "None"
  | .jbool true => "True"
  | .jbool false => "False"
  | .jint n => toString n
  | .jstr s => "\x27" ++ s ++ "\x27"
  | .jarr xs => "[" ++ pyReprList xs ++ "]"
  | .jobj fs => "\x7b" ++ pyReprFields fs ++ "\x7d"

/-- Comma-joined `repr`s of list elements. -/
def pyReprList : List JVal → String
  | [] => ""
  | [x] => pyRepr x
  | x :: xs => pyRepr x ++ ", " ++ pyReprList xs

/-- Comma-joined `repr`s of dict entries. -/
def pyReprFields : List (String × JVal) → String
  | [] => ""
  | [(k, v)] => "\x27" ++ k ++ "\x27: " ++ pyRepr v
  | (k, v) :: fs => "\x27" ++ k ++ "\x27: " ++ pyRepr v ++ ", " ++ pyReprFields fs

end

/-- Python `str` of a JSON value: identity on strings, `repr` otherwise. -/
def pyStr : JVal → String
  | .jstr s => s
  | v => pyRepr v

/-- Decimal value of an ASCII digit character list. -/
def digitsOf (l : List Char) : Nat :=
  l.foldl (fun acc c => acc * 10 + (c.toNat - 48)) 0

/-- Decimal value of an ASCII digit string. -/
def digitsToNat (s : String) : Nat :=
  digitsOf s.data

/-- Python `str.isdigit`, restricted to ASCII digits. -/
def isDigits (s : String) : Bool :=
  !s.data.isEmpty && s.data.all Char.isDigit

/-- Whitespace stripped from both ends (Python `str.strip`). -/
def trimWs (l : List Char) : List Char :=
  ((l.dropWhile Char.isWhitespace).reverse.dropWhile Char.isWhitespace).reverse

/-- Python `int(str)`: optional surrounding whitespace, optional sign, digits. -/
def strToInt (s : String) : Option Int :=
  let t := trimWs s.data
  let core :=
    match t with
    | c :: rest => if c = '-' ∨ c = '+' then rest else t
    | [] => t
  if core.isEmpty || !core.all Char.isDigit then none
  else some (if t.head? = some '-' then -(digitsOf core : Int) else (digitsOf core : Int))

/-- Python `int(value)`; `none` models the `TypeError`/`ValueError` raised on
`None`, lists, dicts and non-numeric strings. -/
def pyInt : JVal → Option Int
  | .jint n => some n
  | .jbool b => some (if b then 1 else 0)
  | .jstr s => strToInt s
  | _ => none

/-- Python `row.get(key)` with no default: absent keys yield `None`. -/
def rowGet : Row → String → JVal
  | row, k => (List.lookup k row).getD .jnull

/-- Python `row.get(key, dflt)`. -/
def rowGetD (row : Row) (k : String) (dflt : JVal) : JVal :=
  (List.lookup k row).getD dflt

/-- Python `a or b`. -/
def pyOr (a b : JVal) : JVal :=
  if pyTruthy a then a else b

/-- Attribute access `value.get`: succeeds only on a dict; `none` models the
`AttributeError` raised otherwise. -/
def asMapping : JVal → Option Row
  | .jobj fs => some fs
  | _ => none

/-- Counter increment: `counter[key] += 1`. -/
def bump (c : String → Nat) (k : String) : String → Nat :=
  fun k2 => if k2 = k then c k2 + 1 else c k2

/-- The all-zero counter. -/
def czero : String → Nat := fun _ => 0

/-- Python `str(row.get("kind", "unknown"))`. -/
def rowKind (row : Row) : String :=
  pyStr (rowGetD row "kind" (.jstr "unknown"))

/-- State of the event loop of `compute_metrics` (lines 106-147). -/
structure EState where
  event_counts : String → Nat
  run_denials : String → Nat
  slot_denials : String → Nat
  tool_gate_denials : String → Nat
  breaker_trips : String → Nat
  total_run_allowed : Nat
  total_run_denied : Nat
  total_slot_allowed : Nat
  total_slot_denied : Nat
  active_runs : Int
  active_slots : Int
  max_active_runs : Int
  max_active_slots : Int

/-- Initial event-loop state of `compute_metrics`. -/
def initE : EState where
  event_counts := czero
  run_denials := czero
  slot_denials := czero
  tool_gate_denials := czero
  breaker_trips := czero
  total_run_allowed := 0
  total_run_denied := 0
  total_slot_allowed := 0
  total_slot_denied := 0
  active_runs := 0
  active_slots := 0
  max_active_runs := 0
  max_active_slots := 0

/-- One iteration of the event loop of `compute_metrics`. -/
def eventStep (s : EState) (row : Row) : EState :=
  let kind := rowKind row
  let s := { s with event_counts := bump s.event_counts kind }
  if kind = "run_allowed" then
    { s with total_run_allowed := s.total_run_allowed + 1,
             active_runs := s.active_runs + 1,
             max_active_runs := max s.max_active_runs (s.active_runs + 1) }
  else if kind = "run_end" then
    { s with active_runs := max 0 (s.active_runs - 1) }
  else if kind = "run_denied" then
    { s with total_run_denied := s.total_run_denied + 1,
             run_denials := bump s.run_denials (pyStr (rowGetD row "code" (.jstr "UNKNOWN"))) }
  else if kind = "slot_allowed" then
    { s with total_slot_allowed := s.total_slot_allowed + 1,
             active_slots := s.active_slots + 1,
             max_active_slots := max s.max_active_slots (s.active_slots + 1) }
  else if kind = "slot_release" then
    { s with active_slots := max 0 (s.active_slots - 1) }
  else if kind = "slot_denied" then
    { s with total_slot_denied := s.total_slot_denied + 1,
             slot_denials := bump s.slot_denials (pyStr (rowGetD row "code" (.jstr "UNKNOWN"))) }
  else if kind = "tool_gate_denied" then
    { s with tool_gate_denials := bump s.tool_gate_denials (pyStr (rowGetD row "code" (.jstr "UNKNOWN"))) }
  else if kind = "circuit_open" then
    { s with breaker_trips := bump s.breaker_trips (pyStr (rowGetD row "reason" (.jstr "unknown"))) }
  else
    s

/-- The whole event loop of `compute_metrics`, folded in input order. -/
def admissionEventFold (events : List Row) : EState :=
  events.foldl eventStep initE

/-- Result of `compute_metrics` (the `SoakMetrics` dataclass). -/
structure SoakMetrics where
  event_counts : String → Nat
  run_denials : String → Nat
  slot_denials : String → Nat
  tool_gate_denials : String → Nat
  breaker_trips : String → Nat
  total_run_allowed : Nat
  total_run_denied : Nat
  total_slot_allowed : Nat
  total_slot_denied : Nat
  max_active_runs : Int
  max_active_slots : Int
  max_gap : Int
  critical_status_samples : Nat
  warn_status_samples : Nat
  ok_status_samples : Nat
  circuit_open_samples : Nat
  circuit_closed_samples : Nat

/-- Seed of the status loop: values carried over from the event loop
(lines 149-156). -/
def initSoak (e : EState) : SoakMetrics where
  event_counts := e.event_counts
  run_denials := e.run_denials
  slot_denials := e.slot_denials
  tool_gate_denials := e.tool_gate_denials
  breaker_trips := e.breaker_trips
  total_run_allowed := e.total_run_allowed
  total_run_denied := e.total_run_denied
  total_slot_allowed := e.total_slot_allowed
  total_slot_denied := e.total_slot_denied
  max_active_runs := e.max_active_runs
  max_active_slots := e.max_active_slots
  max_gap := 0
  critical_status_samples := 0
  warn_status_samples := 0
  ok_status_samples := 0
  circuit_open_samples := 0
  circuit_closed_samples := 0

/-- One iteration of the status loop of `compute_metrics` (lines 158-176);
`none` models an uncaught exception. -/
def statusStep (s : SoakMetrics) (row : Row) : Option SoakMetrics := do
  let ar ← pyInt (rowGetD row "activeRuns" (.jint 0))
  let asl ← pyInt (rowGetD row "activeSlots" (.jint 0))
  let mg ← pyInt (rowGetD row "maxGap" (.jint 0))
  let s := { s with max_active_runs := max s.max_active_runs ar,
                    max_active_slots := max s.max_active_slots asl,
                    max_gap := max s.max_gap mg }
  let pressure ← asMapping (pyOr (rowGet row "pressure") (.jobj []))
  let severity := pyStr (rowGetD pressure "severity" (.jstr "ok"))
  let s :=
    if severity = "critical" then
      { s with critical_status_samples := s.critical_status_samples + 1 }
    else if severity = "warn" then
      { s with warn_status_samples := s.warn_status_samples + 1 }
    else
      { s with ok_status_samples := s.ok_status_samples + 1 }
  let circuit ← asMapping (pyOr (rowGet row "circuit") (.jobj []))
  if pyStr (rowGetD circuit "status" (.jstr "closed")) = "open" then
    some { s with circuit_open_samples := s.circuit_open_samples + 1 }
  else
    some { s with circuit_closed_samples := s.circuit_closed_samples + 1 }

/-- The status loop of `compute_metrics`, folded in input order. -/
def statusFold (s : SoakMetrics) : List Row → Option SoakMetrics
  | [] => some s
  | row :: rest =>
    match statusStep s row with
    | none => none
    | some s2 => statusFold s2 rest

/-- The `compute_metrics` function. -/
def compute_metrics (events status_rows : List Row) : Option SoakMetrics :=
  statusFold (initSoak (admissionEventFold events)) status_rows

/-- Result of `compute_workload_metrics` (the `WorkloadMetrics` dataclass). -/
structure WorkloadMetrics where
  event_counts : String → Nat
  run_denials : String → Nat
  run_completed : String → Nat
  depth_probe_rejections : String → Nat
  gap_probe_rejections : String → Nat
  total_run_completed : Nat
  total_run_denied : Nat
  total_depth_probe : Nat
  burst_slot_granted : Int
  burst_slot_denied : Int

/-- Initial state of `compute_workload_metrics`. -/
def initW : WorkloadMetrics where
  event_counts := czero
  run_denials := czero
  run_completed := czero
  depth_probe_rejections := czero
  gap_probe_rejections := czero
  total_run_completed := 0
  total_run_denied := 0
  total_depth_probe := 0
  burst_slot_granted := 0
  burst_slot_denied := 0

/-- One iteration of the loop of `compute_workload_metrics` (lines 212-238);
`none` models an uncaught exception. -/
def workloadStep (w : WorkloadMetrics) (row : Row) : Option WorkloadMetrics := do
  let kind := rowKind row
  let w := { w with event_counts := bump w.event_counts kind }
  let detail ← asMapping (pyOr (rowGet row "detail") (.jobj []))
  if kind = "run_denied" then
    some { w with total_run_denied := w.total_run_denied + 1,
                  run_denials := bump w.run_denials (pyStr (rowGetD detail "code" (.jstr "UNKNOWN"))) }
  else if kind = "run_completed" then do
    let w := { w with total_run_completed := w.total_run_completed + 1,
                      run_completed := bump w.run_completed (pyStr (rowGetD detail "runKind" (.jstr "unknown"))) }
    let slot_attempts ← pyInt (pyOr (rowGet detail "slotAttempts") (.jint 0))
    let requested_parallelism ← pyInt (pyOr (rowGet detail "requestedParallelism") (.jint 0))
    if slot_attempts > requested_parallelism then do
      let g ← pyInt (pyOr (rowGet detail "grantedSlots") (.jint 0))
      let d ← pyInt (pyOr (rowGet detail "deniedSlots") (.jint 0))
      some { w with burst_slot_granted := w.burst_slot_granted + g,
                    burst_slot_denied := w.burst_slot_denied + d }
    else
      some w
  else if kind = "depth_probe" then
    let w := { w with total_depth_probe := w.total_depth_probe + 1 }
    if pyTruthy (rowGet detail "ok") then
      some { w with depth_probe_rejections := bump w.depth_probe_rejections "ok" }
    else
      some { w with depth_probe_rejections :=
                      bump w.depth_probe_rejections (pyStr (rowGetD detail "rejection" (.jstr "UNKNOWN"))) }
  else if kind = "gap_probe" then
    if pyTruthy (rowGet detail "ok") then
      some { w with gap_probe_rejections := bump w.gap_probe_rejections "ok" }
    else
      some { w with gap_probe_rejections :=
                      bump w.gap_probe_rejections (pyStr (rowGetD detail "rejection" (.jstr "UNKNOWN"))) }
  else
    some w

/-- The loop of `compute_workload_metrics`, folded in input order. -/
def workloadFold (w : WorkloadMetrics) : List Row → Option WorkloadMetrics
  | [] => some w
  | row :: rest =>
    match workloadStep w row with
    | none => none
    | some w2 => workloadFold w2 rest

/-- The `compute_workload_metrics` function. -/
def compute_workload_metrics (workload_rows : List Row) : Option WorkloadMetrics :=
  workloadFold initW workload_rows

/-- The `ratio` function; Python float division is modelled over `ℚ`. -/
def ratio (numerator denominator : Int) : ℚ :=
  if denominator ≤ 0 then 0 else (numerator : ℚ) / (denominator : ℚ)

/-- Fixed suggestion message of rule 1 (denials present). -/
def msgRunCapYes : String :=
  "RUN_CAP_REACHED denials observed. Consider raising PI_ORCH_ADM_MAX_RUNS if latency is user-visible."

/-- Fixed suggestion message of rule 1 (no denials). -/
def msgRunCapNo : String :=
  "No RUN_CAP_REACHED denials observed; no evidence to raise PI_ORCH_ADM_MAX_RUNS from this soak."

/-- Leading fragment of the interpolated burst message of rule 2. -/
def msgBurstHead : String :=
  "SLOT_CAP_REACHED denials were concentrated in burst scenarios (burst deny ratio "

/-- Trailing fragment of the interpolated burst message of rule 2. -/
def msgBurstTail : String :=
  "); keep PI_ORCH_ADM_MAX_SLOTS unless interactive lanes starve."

/-- Fixed suggestion message of rule 2 (high organic slot-denial ratio). -/
def msgSlotTune : String :=
  "High slot denial ratio outside critical pressure. Consider tuning PI_ORCH_ADM_MAX_SLOTS or team concurrency defaults."

/-- Fixed suggestion message of rule 3. -/
def msgGapBreaker : String :=
  "call_result_gap breaker dominated trips; tighten recovery latency (recommend PI_ORCH_ADM_BREAKER_COOLDOWN_MS=30000, PI_ORCH_ADM_GAP_RESET_QUIET_MS=45000)."

/-- Fixed suggestion message of rule 4. -/
def msgDepthGuard : String :=
  "Depth guard behaved as expected: 100% of synthetic depth probes were rejected with DEPTH_EXCEEDED."

/-- Fixed suggestion message of rule 5. -/
def msgInflated : String :=
  "Aggregate run denial ratio is inflated by synthetic probes/cooldowns; use workload operational ratio for capacity tuning decisions."

/-- Fixed suggestion message of rule 6. -/
def msgPressureFreshness : String :=
  "Critical pressure samples observed without host_pressure breaker trips. Verify pressure freshness window and ops-watchdog log feed."

/-- Fixed fallback message of rule 7. -/
def msgNoUrgent : String :=
  "No urgent threshold change indicated from this run; keep defaults and continue periodic soak runs."

/-- Rendering of the `:.1%` format specifier (CPython float formatting
approximated with rational rounding). -/
def formatPercent (q : ℚ) : String :=
  let p : Int := round (q * 1000)
  toString (p / 10) ++ "." ++ toString (p % 10) ++ "%"

/-- The `suggestions` function (lines 260-312). -/
def suggestions (metrics : SoakMetrics) (workload : WorkloadMetrics) : List String :=
  let run_total : Int := (metrics.total_run_allowed : Int) + (metrics.total_run_denied : Int)
  let slot_total : Int := (metrics.total_slot_allowed : Int) + (metrics.total_slot_denied : Int)
  let operational_total : Int := (workload.total_run_completed : Int) + (workload.total_run_denied : Int)
  let run_denial_rat := ratio (metrics.total_run_denied : Int) run_total
  let slot_denial_rat := ratio (metrics.total_slot_denied : Int) slot_total
  let operational_denial_rat := ratio (workload.total_run_denied : Int) operational_total
  let critical_rat :=
    ratio (metrics.critical_status_samples : Int)
      ((metrics.critical_status_samples : Int) + (metrics.warn_status_samples : Int) +
        (metrics.ok_status_samples : Int))
  let out : List String := []
  let out := out ++
    [if 0 < metrics.run_denials "RUN_CAP_REACHED" then msgRunCapYes else msgRunCapNo]
  let out := out ++
    (if 0 < metrics.slot_denials "SLOT_CAP_REACHED" then
      (if 0 < workload.burst_slot_denied ∧ 0 < workload.burst_slot_granted then
        [msgBurstHead ++
          formatPercent
            ( ratio workload.burst_slot_denied
                (workload.burst_slot_denied + workload.burst_slot_granted)) ++
          msgBurstTail]
      else if slot_denial_rat > 3 / 10 ∧ critical_rat < 1 / 10 then [msgSlotTune]
      else [])
    else [])
  let out := out ++
    (if 3 ≤ metrics.breaker_trips "call_result_gap" then [msgGapBreaker] else [])
  let out := out ++
    (if 0 < workload.total_depth_probe ∧
        workload.depth_probe_rejections "DEPTH_EXCEEDED" = workload.total_depth_probe then
      [msgDepthGuard]
    else [])
  let out := out ++
    (if run_denial_rat > 2 / 10 ∧ operational_denial_rat < run_denial_rat then [msgInflated] else [])
  let out := out ++
    (if metrics.breaker_trips "host_pressure" = 0 ∧ 0 < metrics.critical_status_samples then
      [msgPressureFreshness]
    else [])
  if out.isEmpty then out ++ [msgNoUrgent] else out

/-- The `load_ndjson` loop body (lines 30-42): lines folded in input order,
with blank, unparsable and non-object lines skipped by `continue`. The
behaviour of `json.loads` is abstracted as the `parse` argument (`none`
models `json.JSONDecodeError`). -/
def loadRows (parse : String → Option JVal) : List String → List Row
  | [] => []
  | line :: rest =>
    let text := line.trim
    if text.isEmpty then loadRows parse rest
    else
      match parse text with
      | none => loadRows parse rest
      | some (.jobj fields) => fields :: loadRows parse rest
      | some _ => loadRows parse rest

/-- The `load_ndjson` function: a missing file (`none`) yields no rows
(lines 27-28). -/
def load_ndjson (parse : String → Option JVal) : Option (List String) → List Row
  | none => []
  | some lines => loadRows parse lines

/-- Modelled from the claim's words: keep a line exactly when it is non-blank
and parses as a JSON object, extracting its fields. -/
def loadSpecKeep (parse : String → Option JVal) (line : String) : Option Row :=
  if (line.trim).isEmpty then none
  else
    match parse line.trim with
    | some (.jobj fields) => some fields
    | _ => none

/-- Modelled from the claim's words: the record loader returns exactly the
lines that parse as JSON objects, in input order. -/
def loadSpec (parse : String → Option JVal) (lines : List String) : List Row :=
  lines.filterMap (loadSpecKeep parse)

/-- The fixed name of the un-suffixed admission log. -/
def baseName : String := "orchestration-admission.ndjson"

/-- Characters split on dots, as Python `str.split(".")`. -/
def splitOnDot : List Char → List (List Char)
  | [] => [[]]
  | c :: rest =>
    let r := splitOnDot rest
    if c = '.' then [] :: r
    else
      match r with
      | [] => [[c]]
      | h :: t => (c :: h) :: t

/-- Python `name.rsplit(".", 1)[-1]`: the fragment after the last dot, or the
whole name when it has no dot. -/
def lastSuffix (s : String) : String :=
  String.mk ((splitOnDot s.data).getLastD s.data)

/-- The `sort_key` closure of `admission_event_paths` (lines 48-55). -/
def sortKey (name : String) : Nat × String :=
  if name = baseName then (0, name)
  else if isDigits (lastSuffix name) then (digitsToNat (lastSuffix name), name)
  else (9999999, name)

/-- Strict code-point lexicographic comparison of character lists (Python
string `<`). -/
def charListLt : List Char → List Char → Bool
  | _, [] => false
  | [], _ :: _ => true
  | a :: as, b :: bs =>
    if a.toNat < b.toNat then true
    else if b.toNat < a.toNat then false
    else charListLt as bs

/-- Strict comparison of `sort_key` results: lexicographic on the
`(int, str)` pair, as Python tuple `<`. -/
def keyLt (a b : Nat × String) : Bool :=
  decide (a.1 < b.1) || (decide (a.1 = b.1) && charListLt a.2.data b.2.data)

/-- Stable sorted insertion of a name by `sort_key`. -/
def insertSorted (x : String) : List String → List String
  | [] => [x]
  | y :: ys => if keyLt (sortKey x) (sortKey y) then x :: y :: ys else y :: insertSorted x ys

/-- Stable sort by `sort_key` (Python `sorted(..., key=sort_key)`). -/
def sortPaths (names : List String) : List String :=
  names.foldl (fun acc n => insertSorted n acc) []

/-- The glob `orchestration-admission.ndjson*`: names beginning with the
base name. -/
def globAdmission (name : String) : Bool :=
  baseName.data.isPrefixOf name.data

/-- The `admission_event_paths` function, over the directory's file names. -/
def admission_event_paths (names : List String) : List String :=
  sortPaths (names.filter globAdmission)

/-- Integer value of a field, with absent or non-integer values read as 0
(the claims' reading of status/detail fields). -/
def jIntOr0 (row : Row) (k : String) : Int :=
  match List.lookup k row with
  | some (.jint n) => n
  | _ => 0

/-- Modelled from the claim's words: the largest value of an integer field
over the status samples, absent fields treated as 0. -/
def statusFieldMax (rows : List Row) (k : String) : Int :=
  rows.foldr (fun r acc => max (jIntOr0 r k) acc) 0

/-- A field that is absent or holds a JSON integer. -/
def intOrAbsent (row : Row) (k : String) : Bool :=
  match List.lookup k row with
  | none => true
  | some (.jint _) => true
  | some _ => false

/-- Well-typedness of one status sample: every numeric field `int`-converts
and `pressure`/`circuit` are mappings once truthy. -/
def statusRowOk (row : Row) : Bool :=
  (pyInt (rowGetD row "activeRuns" (.jint 0))).isSome &&
  (pyInt (rowGetD row "activeSlots" (.jint 0))).isSome &&
  (pyInt (rowGetD row "maxGap" (.jint 0))).isSome &&
  (asMapping (pyOr (rowGet row "pressure") (.jobj []))).isSome &&
  (asMapping (pyOr (rowGet row "circuit") (.jobj []))).isSome

/-- Well-typedness of one workload record: `detail` is a mapping once truthy
and its numeric fields `int`-convert once truthy. -/
def workloadRowOk (row : Row) : Bool :=
  match asMapping (pyOr (rowGet row "detail") (.jobj [])) with
  | none => false
  | some d =>
    ["slotAttempts", "requestedParallelism", "grantedSlots", "deniedSlots"].all fun k =>
      !pyTruthy (rowGet d k) || (pyInt (rowGet d k)).isSome

/-- Severity string a status sample reports, when its `pressure` field can be
read at all. -/
def sampleSeverity (row : Row) : Option String :=
  (asMapping (pyOr (rowGet row "pressure") (.jobj []))).map fun p =>
    pyStr (rowGetD p "severity" (.jstr "ok"))

/-- A depth probe whose detail reports a falsy `ok` and the rejection code
`DEPTH_EXCEEDED`. -/
def depthProbeExpected (row : Row) : Bool :=
  match asMapping (pyOr (rowGet row "detail") (.jobj [])) with
  | none => false
  | some d =>
    !pyTruthy (rowGet d "ok") &&
      (pyStr (rowGetD d "rejection" (.jstr "UNKNOWN")) == "DEPTH_EXCEEDED")

/-- Well-typedness of one workload record for the burst accounting: `detail`
is a mapping once truthy and the four slot fields are absent or integers. -/
def burstRowOk (row : Row) : Bool :=
  match asMapping (pyOr (rowGet row "detail") (.jobj [])) with
  | none => false
  | some d =>
    intOrAbsent d "slotAttempts" && intOrAbsent d "requestedParallelism" &&
      intOrAbsent d "grantedSlots" && intOrAbsent d "deniedSlots"

/-- Modelled from the claim's words: the granted slots a record contributes to
the burst totals — its `grantedSlots` exactly when it is a completed run whose
`slotAttempts` strictly exceeds its `requestedParallelism` (absent as 0). -/
def burstGrantedContribution (row : Row) : Int :=
  match asMapping (pyOr (rowGet row "detail") (.jobj [])) with
  | none => 0
  | some d =>
    if rowKind row = "run_completed" ∧ jIntOr0 d "requestedParallelism" < jIntOr0 d "slotAttempts" then
      jIntOr0 d "grantedSlots"
    else 0

/-- Modelled from the claim's words: the denied slots a record contributes to
the burst totals. -/
def burstDeniedContribution (row : Row) : Int :=
  match asMapping (pyOr (rowGet row "detail") (.jobj [])) with
  | none => 0
  | some d =>
    if rowKind row = "run_completed" ∧ jIntOr0 d "requestedParallelism" < jIntOr0 d "slotAttempts" then
      jIntOr0 d "deniedSlots"
    else 0

/-- Modelled from the claim's words: total burst-granted slots. -/
def burstGrantedSpec (rows : List Row) : Int :=
  (rows.map burstGrantedContribution).sum

/-- Modelled from the claim's words: total burst-denied slots. -/
def burstDeniedSpec (rows : List Row) : Int :=
  (rows.map burstDeniedContribution).sum

/-- A synthetic depth probe rejected with `DEPTH_EXCEEDED`. -/
def depthProbeRow : Row :=
  [("kind", .jstr "depth_probe"),
   ("detail", .jobj [("ok", .jbool false), ("rejection", .jstr "DEPTH_EXCEEDED")])]

/-- Ten rejected depth probes (the claim's example stream). -/
def tenProbes : List Row := List.replicate 10 depthProbeRow

/-- A completed run that attempted more slots than its requested parallelism. -/
def burstRunRow : Row :=
  [("kind", .jstr "run_completed"),
   ("detail", .jobj [("slotAttempts", .jint 6), ("requestedParallelism", .jint 2),
                     ("grantedSlots", .jint 4), ("deniedSlots", .jint 2)])]

/-- A completed run that stayed at its requested parallelism. -/
def calmRunRow : Row :=
  [("kind", .jstr "run_completed"),
   ("detail", .jobj [("slotAttempts", .jint 2), ("requestedParallelism", .jint 2),
                     ("grantedSlots", .jint 9), ("deniedSlots", .jint 9)])]

/-- Workload stream mixing a burst probe with an ordinary run. -/
def burstRows : List Row := [burstRunRow, calmRunRow]

/-- Admission events: two allowed runs and one allowed slot. -/
def cEvents : List Row :=
  [[("kind", .jstr "run_allowed")], [("kind", .jstr "run_allowed")],
   [("kind", .jstr "slot_allowed")]]

/-- Status samples reporting higher active counts than the event stream. -/
def cStatusRows : List Row :=
  [[("activeRuns", .jint 7), ("activeSlots", .jint 5)],
   [("activeRuns", .jint 3)]]

/-- Well-typed status samples used by totality witnesses. -/
def okStatusRows : List Row :=
  [[("activeRuns", .jint 1),
    ("pressure", .jobj [("severity", .jstr "ok")]),
    ("circuit", .jobj [("status", .jstr "closed")])]]

/-- A parse that rejects every line (all-malformed input). -/
def parseNone : String → Option JVal := fun _ => none

/-- An admission stream beginning with unmatched end and release events. -/
def clampEvents : List Row :=
  [[("kind", .jstr "run_end")], [("kind", .jstr "slot_release")]]

/-- Order induced by `sort_key`: the left name's key is at most the right
name's key. -/
def sortedKeyLe (a b : String) : Prop :=
  keyLt (sortKey b) (sortKey a) = false

/-- Number of depth-probe records in a workload stream. -/
def depthCount (rows : List Row) : Nat :=
  rows.countP fun r => rowKind r == "depth_probe"

/-- Every branch of the event loop keeps the active counters and their maxima
non-negative. -/
theorem eventStep_nonneg (s : EState) (row : Row)
    (h1 : 0 ≤ s.active_runs) (h2 : 0 ≤ s.active_slots)
    (h3 : 0 ≤ s.max_active_runs) (h4 : 0 ≤ s.max_active_slots) :
    0 ≤ (eventStep s row).active_runs ∧ 0 ≤ (eventStep s row).active_slots ∧
    0 ≤ (eventStep s row).max_active_runs ∧ 0 ≤ (eventStep s row).max_active_slots := by
  simp only [eventStep]
  split_ifs <;> simp_all [le_max_iff] <;> omega

/-- The event loop keeps the active counters and their maxima non-negative
from any non-negative seed. -/
theorem eventFold_nonneg (events : List Row) :
    ∀ s : EState, 0 ≤ s.active_runs → 0 ≤ s.active_slots →
    0 ≤ s.max_active_runs → 0 ≤ s.max_active_slots →
    0 ≤ (events.foldl eventStep s).active_runs ∧
    0 ≤ (events.foldl eventStep s).active_slots ∧
    0 ≤ (events.foldl eventStep s).max_active_runs ∧
    0 ≤ (events.foldl eventStep s).max_active_slots := by
  induction events with
  | nil => intro s h1 h2 h3 h4; exact ⟨h1, h2, h3, h4⟩
  | cons r rest ih =>
    intro s h1 h2 h3 h4
    have hs := eventStep_nonneg s r h1 h2 h3 h4
    exact ih (eventStep s r) hs.1 hs.2.1 hs.2.2.1 hs.2.2.2

/-- C1: at every point of the event fold of `compute_metrics`, the
event-derived active-run and active-slot counters are non-negative: each
`run_end` (resp. `slot_release`) decrement is clamped at zero, even when the
stream contains more end/release events than matching allowed events. -/
theorem admission_active_counters_nonneg (events : List Row) (k : Nat) :
    0 ≤ (admissionEventFold (events.take k)).active_runs ∧
    0 ≤ (admissionEventFold (events.take k)).active_slots := by
  have h := eventFold_nonneg (events.take k) initE (by simp [initE]) (by simp [initE])
    (by simp [initE]) (by simp [initE])
  exact ⟨h.1, h.2.1⟩

/-- C5: the `ratio` safe-divide returns exactly 0 whenever the denominator is
non-positive (never a division fault), and the true quotient otherwise. -/
theorem ratio_safe_divide (n d : Int) :
    (d ≤ 0 → ratio n d = 0) ∧ (0 < d → ratio n d = (n : ℚ) / (d : ℚ)) := by
  unfold ratio
  constructor
  · intro h; simp [h]
  · intro h; rw [if_neg (by omega)]

/-- Witness: C5 at the concrete inputs 7 over 0, 7 over -2 and 7 over 2. -/
theorem ratio_safe_divide_witness :
    ratio 7 0 = 0 ∧ ratio 7 (-2) = 0 ∧ ratio 7 2 = (7 : ℚ) / 2 := by
  refine ⟨(ratio_safe_divide 7 0).1 (by norm_num),
         (ratio_safe_divide 7 (-2)).1 (by norm_num), ?_⟩
  have h := (ratio_safe_divide 7 2).2 (by norm_num)
  simpa using h

/-- C9: the record loader returns exactly the lines that parse as JSON
objects, in input order; a missing file yields an empty sequence, and every
blank line, unparsable line, or line whose JSON value is not an object is
silently dropped. -/
theorem load_ndjson_keeps_objects (parse : String → Option JVal) :
    load_ndjson parse none = [] ∧
    ∀ lines : List String, load_ndjson parse (some lines) = loadSpec parse lines := by
  refine ⟨rfl, ?_⟩
  intro lines
  show loadRows parse lines = loadSpec parse lines
  induction lines with
  | nil => rfl
  | cons line rest ih =>
    simp only [loadRows, loadSpec, List.filterMap_cons, loadSpecKeep]
    by_cases hb : (line.trim).isEmpty
    · simpa [hb, loadSpec] using ih
    · cases hp : parse line.trim with
      | none => simpa [hb, hp, loadSpec] using ih
      | some v => cases v <;> simpa [hb, hp, loadSpec] using ih

/-- An `or`-defaulted field converts with `int` once the raw value converts
when truthy. -/
theorem pyOr_int_ok (v : JVal) (h : (!pyTruthy v || (pyInt v).isSome) = true) :
    (pyInt (pyOr v (.jint 0))).isSome = true := by
  unfold pyOr
  by_cases ht : pyTruthy v
  · simp only [ht, Bool.not_true, Bool.false_or] at h
    simpa [ht] using h
  · simp [ht, pyInt]

/-- A well-typed status sample never makes the status loop raise. -/
theorem statusStep_ok (s : SoakMetrics) (row : Row) (h : statusRowOk row = true) :
    (statusStep s row).isSome = true := by
  unfold statusRowOk at h
  simp only [Bool.and_eq_true] at h
  obtain ⟨⟨⟨⟨har, hasl⟩, hmg⟩, hp⟩, hc⟩ := h
  obtain ⟨a1, e1⟩ := Option.isSome_iff_exists.mp har
  obtain ⟨a2, e2⟩ := Option.isSome_iff_exists.mp hasl
  obtain ⟨a3, e3⟩ := Option.isSome_iff_exists.mp hmg
  obtain ⟨p, e4⟩ := Option.isSome_iff_exists.mp hp
  obtain ⟨c, e5⟩ := Option.isSome_iff_exists.mp hc
  simp only [statusStep, e1, e2, e3, e4, e5, Option.bind_eq_bind, Option.some_bind]
  split_ifs <;> rfl

/-- The status loop completes on any run of well-typed samples. -/
theorem statusFold_total (rows : List Row) :
    ∀ s : SoakMetrics, (∀ r ∈ rows, statusRowOk r = true) →
    (statusFold s rows).isSome = true := by
  induction rows with
  | nil => intro s _; rfl
  | cons r rest ih =>
    intro s hall
    obtain ⟨s2, e2⟩ := Option.isSome_iff_exists.mp
      (statusStep_ok s r (hall r (List.mem_cons_self r rest)))
    simp only [statusFold, e2]
    exact ih s2 fun r2 h2 => hall r2 (List.mem_cons_of_mem r h2)

/-- A well-typed workload record never makes the workload loop raise. -/
theorem workloadStep_ok (w : WorkloadMetrics) (row : Row) (h : workloadRowOk row = true) :
    (workloadStep w row).isSome = true := by
  unfold workloadRowOk at h
  rcases hd : asMapping (pyOr (rowGet row "detail") (.jobj [])) with _ | d
  · rw [hd] at h; exact absurd h (by simp)
  · rw [hd] at h
    simp only [List.all_cons, List.all_nil, Bool.and_eq_true, Bool.and_true] at h
    obtain ⟨h1, h2, h3, h4⟩ := h
    obtain ⟨sa, ea⟩ := Option.isSome_iff_exists.mp (pyOr_int_ok _ h1)
    obtain ⟨rp, ep⟩ := Option.isSome_iff_exists.mp (pyOr_int_ok _ h2)
    obtain ⟨g, eg⟩ := Option.isSome_iff_exists.mp (pyOr_int_ok _ h3)
    obtain ⟨dn, en⟩ := Option.isSome_iff_exists.mp (pyOr_int_ok _ h4)
    simp only [workloadStep, hd, ea, ep, eg, en, Option.bind_eq_bind, Option.some_bind]
    split_ifs <;> rfl

/-- The workload loop completes on any run of well-typed records. -/
theorem workloadFold_total (rows : List Row) :
    ∀ w : WorkloadMetrics, (∀ r ∈ rows, workloadRowOk r = true) →
    (workloadFold w rows).isSome = true := by
  induction rows with
  | nil => intro w _; rfl
  | cons r rest ih =>
    intro w hall
    obtain ⟨w2, e2⟩ := Option.isSome_iff_exists.mp
      (workloadStep_ok w r (hall r (List.mem_cons_self r rest)))
    simp only [workloadFold, e2]
    exact ih w2 fun r2 h2 => hall r2 (List.mem_cons_of_mem r h2)

/-- C2 counterexample: a present but non-numeric `activeRuns` (resp.
`slotAttempts`) value makes the admission (resp. workload) reduction raise
instead of degrading to the documented default. -/
theorem reducers_fail_on_malformed_field :
    compute_metrics [] [[("activeRuns", JVal.jstr "high")]] = none ∧
    compute_workload_metrics [[("kind", JVal.jstr "run_completed"),
        ("detail", JVal.jobj [("slotAttempts", JVal.jstr "high")])]] = none := by
  constructor <;> rfl

/-- C2 (amended): absent optional fields and falsy `or`-defaulted values
degrade to the documented defaults, and both reductions complete without
error whenever every present numeric field `int`-converts and every truthy
`pressure`, `circuit` and `detail` value is a mapping; a present truthy
non-numeric value, however, raises and fails the fold. -/
theorem reducers_total_on_welltyped :
    (∀ events rows : List Row, (∀ r ∈ rows, statusRowOk r = true) →
      ∃ m, compute_metrics events rows = some m) ∧
    (∀ rows : List Row, (∀ r ∈ rows, workloadRowOk r = true) →
      ∃ w, compute_workload_metrics rows = some w) := by
  constructor
  · intro events rows hall
    exact Option.isSome_iff_exists.mp (statusFold_total rows _ hall)
  · intro rows hall
    exact Option.isSome_iff_exists.mp (workloadFold_total rows _ hall)

/-- Witness: C2 (amended) at concrete well-typed admission and workload
streams. -/
theorem reducers_total_on_welltyped_witness :
    (∃ m, compute_metrics cEvents okStatusRows = some m) ∧
    (∃ w, compute_workload_metrics burstRows = some w) :=
  ⟨reducers_total_on_welltyped.1 cEvents okStatusRows (by decide),
   reducers_total_on_welltyped.2 burstRows (by decide)⟩

/-- An absent-or-integer field read through `row.get(k, 0)` converts with
`int` to its claimed value. -/
theorem intOrAbsent_pyInt (row : Row) (k : String) (h : intOrAbsent row k = true) :
    pyInt (rowGetD row k (.jint 0)) = some (jIntOr0 row k) := by
  unfold intOrAbsent at h
  unfold rowGetD jIntOr0
  rcases hl : List.lookup k row with _ | v
  · simp [pyInt]
  · rw [hl] at h
    cases v <;> simp_all [pyInt]

/-- One status-loop step raises the two high-water marks by exactly the
sample's integer `activeRuns`/`activeSlots` values. -/
theorem statusStep_max (s t : SoakMetrics) (row : Row)
    (h : statusStep s row = some t)
    (hr : intOrAbsent row "activeRuns" = true) (hs : intOrAbsent row "activeSlots" = true) :
    t.max_active_runs = max s.max_active_runs (jIntOr0 row "activeRuns") ∧
    t.max_active_slots = max s.max_active_slots (jIntOr0 row "activeSlots") := by
  have har := intOrAbsent_pyInt row "activeRuns" hr
  have hasl := intOrAbsent_pyInt row "activeSlots" hs
  rcases hmg : pyInt (rowGetD row "maxGap" (.jint 0)) with _ | mg
  · rw [statusStep] at h; simp [har, hasl, hmg] at h
  rcases hp : asMapping (pyOr (rowGet row "pressure") (.jobj [])) with _ | p
  · rw [statusStep] at h; simp [har, hasl, hmg, hp] at h
  rcases hc : asMapping (pyOr (rowGet row "circuit") (.jobj [])) with _ | c
  · rw [statusStep] at h; simp [har, hasl, hmg, hp, hc] at h
  rw [statusStep] at h
  simp only [har, hasl, hmg, hp, hc, Option.bind_eq_bind, Option.some_bind] at h
  split_ifs at h <;> simp only [Option.some.injEq] at h <;> subst h <;> exact ⟨rfl, rfl⟩

/-- The status loop raises the two high-water marks to the largest sampled
values, from any non-negative seed. -/
theorem statusFold_max (rows : List Row) :
    ∀ s t : SoakMetrics, statusFold s rows = some t →
    (∀ r ∈ rows, intOrAbsent r "activeRuns" = true ∧ intOrAbsent r "activeSlots" = true) →
    0 ≤ s.max_active_runs → 0 ≤ s.max_active_slots →
    t.max_active_runs = max s.max_active_runs (statusFieldMax rows "activeRuns") ∧
    t.max_active_slots = max s.max_active_slots (statusFieldMax rows "activeSlots") := by
  induction rows with
  | nil =>
    intro s t h _ h0r h0s
    simp only [statusFold, Option.some.injEq] at h
    subst h
    constructor
    · simp [statusFieldMax, max_eq_left h0r]
    · simp [statusFieldMax, max_eq_left h0s]
  | cons r rest ih =>
    intro s t h hall h0r h0s
    rcases e : statusStep s r with _ | s2
    · rw [statusFold, e] at h; exact absurd h (by simp)
    · rw [statusFold, e] at h
      have hm := statusStep_max s s2 r e (hall r (by simp)).1 (hall r (by simp)).2
      have h0r2 : 0 ≤ s2.max_active_runs := by
        rw [hm.1]; exact le_trans h0r (le_max_left _ _)
      have h0s2 : 0 ≤ s2.max_active_slots := by
        rw [hm.2]; exact le_trans h0s (le_max_left _ _)
      have ht := ih s2 t h (fun x hx => hall x (List.mem_cons_of_mem r hx)) h0r2 h0s2
      constructor
      · rw [ht.1, hm.1]
        simp only [statusFieldMax, List.foldr_cons]
        exact max_assoc _ _ _
      · rw [ht.2, hm.2]
        simp only [statusFieldMax, List.foldr_cons]
        exact max_assoc _ _ _

/-- C4: with integer (or absent, read as 0) `activeRuns`/`activeSlots` status
fields, the final high-water marks of `compute_metrics` are exactly the
maximum of the event-derived running maxima and the largest sampled values. -/
theorem compute_metrics_max_reconciliation (events rows : List Row) (m : SoakMetrics)
    (h : compute_metrics events rows = some m)
    (hty : ∀ r ∈ rows, intOrAbsent r "activeRuns" = true ∧ intOrAbsent r "activeSlots" = true) :
    m.max_active_runs =
      max (admissionEventFold events).max_active_runs (statusFieldMax rows "activeRuns") ∧
    m.max_active_slots =
      max (admissionEventFold events).max_active_slots (statusFieldMax rows "activeSlots") := by
  have hnn := eventFold_nonneg events initE (by simp [initE]) (by simp [initE])
    (by simp [initE]) (by simp [initE])
  have := statusFold_max rows (initSoak (admissionEventFold events)) m h hty
    (by simpa [initSoak, admissionEventFold] using hnn.2.2.1)
    (by simpa [initSoak, admissionEventFold] using hnn.2.2.2)
  simpa [initSoak] using this

/-- Witness: C4 at a concrete event stream (two allowed runs, one allowed
slot) and status samples reporting 7 active runs and 5 active slots. -/
theorem compute_metrics_max_reconciliation_witness :
    ∃ m, compute_metrics cEvents cStatusRows = some m ∧
      m.max_active_runs = 7 ∧ m.max_active_slots = 5 := by
  cases h : compute_metrics cEvents cStatusRows with
  | none =>
    have hs : (compute_metrics cEvents cStatusRows).isSome = true := by decide
    rw [h] at hs
    exact Bool.noConfusion hs
  | some m =>
    have hm := compute_metrics_max_reconciliation cEvents cStatusRows m h (by decide)
    refine ⟨m, rfl, ?_, ?_⟩
    · rw [hm.1]; decide
    · rw [hm.2]; decide

/-- The rule chain of `suggestions` unfolded: rule 1 always contributes, so
the fallback branch is skipped. -/
theorem suggestions_eq (m : SoakMetrics) (w : WorkloadMetrics) :
    suggestions m w =
      [if 0 < m.run_denials "RUN_CAP_REACHED" then msgRunCapYes else msgRunCapNo] ++
      ((if 0 < m.slot_denials "SLOT_CAP_REACHED" then
        (if 0 < w.burst_slot_denied ∧ 0 < w.burst_slot_granted then
          [msgBurstHead ++
            formatPercent
              ( ratio w.burst_slot_denied (w.burst_slot_denied + w.burst_slot_granted)) ++
            msgBurstTail]
        else
          if ratio (m.total_slot_denied : Int)
                ((m.total_slot_allowed : Int) + (m.total_slot_denied : Int)) > 3 / 10 ∧
              ratio (m.critical_status_samples : Int)
                ((m.critical_status_samples : Int) + (m.warn_status_samples : Int) +
                  (m.ok_status_samples : Int)) < 1 / 10 then
            [msgSlotTune]
          else [])
      else []) ++
      ((if 3 ≤ m.breaker_trips "call_result_gap" then [msgGapBreaker] else []) ++
      ((if 0 < w.total_depth_probe ∧
            w.depth_probe_rejections "DEPTH_EXCEEDED" = w.total_depth_probe then
          [msgDepthGuard]
        else []) ++
      ((if ratio (m.total_run_denied : Int)
              ((m.total_run_allowed : Int) + (m.total_run_denied : Int)) > 2 / 10 ∧
            ratio (w.total_run_denied : Int)
              ((w.total_run_completed : Int) + (w.total_run_denied : Int)) <
              ratio (m.total_run_denied : Int)
                ((m.total_run_allowed : Int) + (m.total_run_denied : Int)) then
          [msgInflated]
        else []) ++
      (if m.breaker_trips "host_pressure" = 0 ∧ 0 < m.critical_status_samples then
        [msgPressureFreshness]
      else []))))) := by
  unfold suggestions
  simp [List.isEmpty_cons, List.append_assoc]

/-- Membership in a conditional singleton list. -/
theorem mem_ite_singleton {c : Prop} [Decidable c] {a b : String} :
    (a ∈ if c then [b] else ([] : List String)) ↔ c ∧ a = b := by
  split <;> simp_all

/-- Membership in a conditional list. -/
theorem mem_ite_list {c : Prop} [Decidable c] {a : String} {l1 l2 : List String} :
    (a ∈ if c then l1 else l2) ↔ (c ∧ a ∈ l1) ∨ (¬c ∧ a ∈ l2) := by
  split <;> simp_all

set_option maxRecDepth 4000 in
/-- The interpolated burst message is longer than the fixed messages of rules
4, 6 and 7, whatever ratio it carries. -/
theorem msgBurst_ne_fixed (x : String) :
    msgBurstHead ++ x ++ msgBurstTail ≠ msgDepthGuard ∧
    msgBurstHead ++ x ++ msgBurstTail ≠ msgPressureFreshness ∧
    msgBurstHead ++ x ++ msgBurstTail ≠ msgNoUrgent := by
  have key : ∀ t : String, t.length < 142 → msgBurstHead ++ x ++ msgBurstTail ≠ t := by
    intro t ht h
    have hlen := congrArg String.length h
    rw [String.length_append, String.length_append] at hlen
    have h1 : msgBurstHead.length = 80 := by decide
    have h2 : msgBurstTail.length = 62 := by decide
    omega
  exact ⟨key _ (by decide), key _ (by decide), key _ (by decide)⟩

/-- A status sample reporting severity `ok` leaves the critical-sample count
unchanged. -/
theorem statusStep_critical_ok (s t : SoakMetrics) (row : Row)
    (h : statusStep s row = some t) (hok : sampleSeverity row = some "ok") :
    t.critical_status_samples = s.critical_status_samples := by
  rcases e1 : pyInt (rowGetD row "activeRuns" (.jint 0)) with _ | a1
  · rw [statusStep] at h; simp [e1] at h
  rcases e2 : pyInt (rowGetD row "activeSlots" (.jint 0)) with _ | a2
  · rw [statusStep] at h; simp [e1, e2] at h
  rcases e3 : pyInt (rowGetD row "maxGap" (.jint 0)) with _ | a3
  · rw [statusStep] at h; simp [e1, e2, e3] at h
  rcases e4 : asMapping (pyOr (rowGet row "pressure") (.jobj [])) with _ | p
  · rw [sampleSeverity, e4] at hok; simp at hok
  rcases e5 : asMapping (pyOr (rowGet row "circuit") (.jobj [])) with _ | c
  · rw [statusStep] at h; simp [e1, e2, e3, e4, e5] at h
  have hsev : pyStr (rowGetD p "severity" (.jstr "ok")) = "ok" := by
    rw [sampleSeverity, e4] at hok; simpa using hok
  rw [statusStep] at h
  simp [e1, e2, e3, e4, e5, hsev] at h
  split_ifs at h <;> simp only [Option.some.injEq] at h <;> rw [← h]

/-- The status loop leaves the critical-sample count unchanged over a run of
all-ok samples. -/
theorem statusFold_critical (rows : List Row) :
    ∀ s t : SoakMetrics, statusFold s rows = some t →
    (∀ r ∈ rows, sampleSeverity r = some "ok") →
    t.critical_status_samples = s.critical_status_samples := by
  induction rows with
  | nil =>
    intro s t h _
    simp only [statusFold, Option.some.injEq] at h
    subst h; rfl
  | cons r rest ih =>
    intro s t h hall
    rcases e : statusStep s r with _ | s2
    · rw [statusFold, e] at h; exact absurd h (by simp)
    · rw [statusFold, e] at h
      rw [ih s2 t h (fun x hx => hall x (List.mem_cons_of_mem r hx))]
      exact statusStep_critical_ok s s2 r e (hall r (by simp))

set_option maxRecDepth 8000 in
/-- The freshness-window warning appears exactly when the aggregate records
zero host-pressure breaker trips and a positive critical-sample count. -/
theorem mem_pressure_freshness (m : SoakMetrics) (w : WorkloadMetrics) :
    msgPressureFreshness ∈ suggestions m w ↔
      m.breaker_trips "host_pressure" = 0 ∧ 0 < m.critical_status_samples := by
  have d1 : msgPressureFreshness ≠ msgRunCapYes := by decide
  have d2 : msgPressureFreshness ≠ msgRunCapNo := by decide
  have d3 : msgPressureFreshness ≠ msgSlotTune := by decide
  have d4 : msgPressureFreshness ≠ msgGapBreaker := by decide
  have d5 : msgPressureFreshness ≠ msgDepthGuard := by decide
  have d6 : msgPressureFreshness ≠ msgInflated := by decide
  have dB := Ne.symm (msgBurst_ne_fixed (formatPercent
    ( ratio w.burst_slot_denied (w.burst_slot_denied + w.burst_slot_granted)))).2.1
  rw [suggestions_eq]
  simp only [List.mem_append, List.mem_singleton, List.not_mem_nil, mem_ite_list,
    eq_ite_iff, d1, d2, d3, d4, d5, d6, dB, and_false, false_and, or_false, false_or,
    or_self, eq_self_iff_true, and_true]

set_option maxRecDepth 8000 in
/-- C8: the breaker freshness-window warning fires iff the aggregate records
at least one critical-pressure sample and zero host-pressure breaker trips;
in particular it never fires when every status sample reports severity `ok`,
whatever the admission event stream. -/
theorem pressure_freshness_rule (m : SoakMetrics) (w : WorkloadMetrics) :
    (msgPressureFreshness ∈ suggestions m w ↔
      m.breaker_trips "host_pressure" = 0 ∧ 0 < m.critical_status_samples) ∧
    (∀ events rows : List Row, ∀ m2 : SoakMetrics,
      compute_metrics events rows = some m2 →
      (∀ r ∈ rows, sampleSeverity r = some "ok") →
      msgPressureFreshness ∉ suggestions m2 w) := by
  refine ⟨mem_pressure_freshness m w, ?_⟩
  intro events rows m2 h hok hmem
  have hcrit : m2.critical_status_samples = 0 := by
    have := statusFold_critical rows (initSoak (admissionEventFold events)) m2 h hok
    simpa [initSoak] using this
  have hc := (mem_pressure_freshness m2 w).mp hmem
  omega

/-- Witness: C8 at an all-ok status stream. -/
theorem pressure_freshness_rule_witness :
    ∃ m2, compute_metrics [] okStatusRows = some m2 ∧
      msgPressureFreshness ∉ suggestions m2 initW := by
  cases h : compute_metrics [] okStatusRows with
  | none =>
    have hs : (compute_metrics [] okStatusRows).isSome = true := by decide
    rw [h] at hs
    exact Bool.noConfusion hs
  | some m2 =>
    exact ⟨m2, rfl, (pressure_freshness_rule m2 initW).2 [] okStatusRows m2 h (by decide)⟩

set_option maxRecDepth 8000 in
/-- C10: rule 1 of `suggestions` contributes unconditionally, so the result
is never empty, its first entry is one of the two rule-1 messages, and the
final fallback message is unreachable. -/
theorem suggestions_first_rule_total (m : SoakMetrics) (w : WorkloadMetrics) :
    suggestions m w ≠ [] ∧
    (suggestions m w).head? =
      some (if 0 < m.run_denials "RUN_CAP_REACHED" then msgRunCapYes else msgRunCapNo) ∧
    msgNoUrgent ∉ suggestions m w := by
  have d1 : msgNoUrgent ≠ msgRunCapYes := by decide
  have d2 : msgNoUrgent ≠ msgRunCapNo := by decide
  have d3 : msgNoUrgent ≠ msgSlotTune := by decide
  have d4 : msgNoUrgent ≠ msgGapBreaker := by decide
  have d5 : msgNoUrgent ≠ msgDepthGuard := by decide
  have d6 : msgNoUrgent ≠ msgInflated := by decide
  have d7 : msgNoUrgent ≠ msgPressureFreshness := by decide
  have dB := Ne.symm (msgBurst_ne_fixed (formatPercent
    ( ratio w.burst_slot_denied (w.burst_slot_denied + w.burst_slot_granted)))).2.2
  refine ⟨?_, ?_, ?_⟩
  · rw [suggestions_eq]; simp
  · rw [suggestions_eq]; rfl
  · rw [suggestions_eq]
    simp only [List.mem_append, List.mem_singleton, List.not_mem_nil, mem_ite_list,
      eq_ite_iff, d1, d2, d3, d4, d5, d6, d7, dB, and_false, false_and, or_false,
      false_or, or_self, not_false_eq_true]

/-- One workload step advances the depth-probe totals by one exactly on a
depth probe, and touches only the expected rejection bucket when every depth
probe in scope is an expected rejection. -/
theorem workloadStep_depth (w t : WorkloadMetrics) (row : Row)
    (h : workloadStep w row = some t)
    (hd : rowKind row = "depth_probe" → depthProbeExpected row = true) :
    t.total_depth_probe =
      w.total_depth_probe + (if rowKind row = "depth_probe" then 1 else 0) ∧
    t.depth_probe_rejections "DEPTH_EXCEEDED" =
      w.depth_probe_rejections "DEPTH_EXCEEDED" +
        (if rowKind row = "depth_probe" then 1 else 0) ∧
    ∀ k : String, k ≠ "DEPTH_EXCEEDED" →
      t.depth_probe_rejections k = w.depth_probe_rejections k := by
  rcases hm : asMapping (pyOr (rowGet row "detail") (.jobj [])) with _ | d
  · rw [workloadStep] at h; simp [hm] at h
  rw [workloadStep] at h
  simp only [hm, Option.bind_eq_bind, Option.some_bind] at h
  split_ifs at h with k1 k2 k3 kok k4 kok2
  · -- run_denied
    simp only [Option.some.injEq] at h
    subst h
    refine ⟨by simp [k1], by simp [k1], fun k hk => rfl⟩
  · -- run_completed
    rcases e1 : pyInt (pyOr (rowGet d "slotAttempts") (.jint 0)) with _ | sa
    · rw [e1] at h; simp at h
    rcases e2 : pyInt (pyOr (rowGet d "requestedParallelism") (.jint 0)) with _ | rp
    · rw [e1, e2] at h; simp at h
    rw [e1, e2] at h
    simp only [Option.some_bind] at h
    split_ifs at h with hgt
    · rcases e3 : pyInt (pyOr (rowGet d "grantedSlots") (.jint 0)) with _ | g
      · rw [e3] at h; simp at h
      rcases e4 : pyInt (pyOr (rowGet d "deniedSlots") (.jint 0)) with _ | dn
      · rw [e3, e4] at h; simp at h
      rw [e3, e4] at h
      simp only [Option.some_bind, Option.some.injEq] at h
      subst h
      refine ⟨by simp [k2], by simp [k2], fun k hk => rfl⟩
    · simp only [Option.some.injEq] at h
      subst h
      refine ⟨by simp [k2], by simp [k2], fun k hk => rfl⟩
  · -- depth_probe, truthy ok: contradicts the expected-rejection hypothesis
    exfalso
    have hde := hd k3
    simp only [depthProbeExpected, hm, Bool.and_eq_true, Bool.not_eq_true'] at hde
    rw [hde.1] at kok
    exact Bool.noConfusion kok
  · -- depth_probe, falsy ok
    have hde := hd k3
    simp only [depthProbeExpected, hm, Bool.and_eq_true, Bool.not_eq_true',
      beq_iff_eq] at hde
    simp only [Option.some.injEq] at h
    subst h
    refine ⟨by simp [k3], ?_, ?_⟩
    · simp [k3, bump, hde.2]
    · intro k hk
      simp [bump, hde.2, hk]
  · -- gap_probe, truthy ok
    simp only [Option.some.injEq] at h
    subst h
    refine ⟨by simp [k3], by simp [k3], fun k hk => rfl⟩
  · -- gap_probe, falsy ok
    simp only [Option.some.injEq] at h
    subst h
    refine ⟨by simp [k3], by simp [k3], fun k hk => rfl⟩
  · -- unknown kind
    simp only [Option.some.injEq] at h
    subst h
    refine ⟨by simp [k3], by simp [k3], fun k hk => rfl⟩

/-- The workload fold counts every depth probe into the expected-rejection
bucket when all depth probes are expected rejections. -/
theorem workloadFold_depth (rows : List Row) :
    ∀ w t : WorkloadMetrics, workloadFold w rows = some t →
    (∀ r ∈ rows, rowKind r = "depth_probe" → depthProbeExpected r = true) →
    t.total_depth_probe = w.total_depth_probe + depthCount rows ∧
    t.depth_probe_rejections "DEPTH_EXCEEDED" =
      w.depth_probe_rejections "DEPTH_EXCEEDED" + depthCount rows ∧
    ∀ k : String, k ≠ "DEPTH_EXCEEDED" →
      t.depth_probe_rejections k = w.depth_probe_rejections k := by
  induction rows with
  | nil =>
    intro w t h _
    simp only [workloadFold, Option.some.injEq] at h
    subst h
    exact ⟨by simp [depthCount], by simp [depthCount], fun k hk => rfl⟩
  | cons r rest ih =>
    intro w t h hall
    rcases e : workloadStep w r with _ | w2
    · rw [workloadFold, e] at h; exact absurd h (by simp)
    · rw [workloadFold, e] at h
      have hs := workloadStep_depth w w2 r e (hall r (by simp))
      have hr := ih w2 t h (fun x hx => hall x (List.mem_cons_of_mem r hx))
      have hcnt : depthCount (r :: rest) =
          (if rowKind r = "depth_probe" then 1 else 0) + depthCount rest := by
        simp only [depthCount, List.countP_cons, beq_iff_eq]
        split_ifs with hc <;> omega
      refine ⟨?_, ?_, ?_⟩
      · rw [hr.1, hs.1, hcnt]; omega
      · rw [hr.2.1, hs.2.1, hcnt]; omega
      · intro k hk
        rw [hr.2.2 k hk, hs.2.2 k hk]

set_option maxRecDepth 8000 in
/-- C6: when all depth probes of a workload stream are rejected with
`DEPTH_EXCEEDED` and at least one exists, the rejection histogram maps
`DEPTH_EXCEEDED` to the total depth-probe count (and nothing else), and the
depth-guard pass-signal recommendation fires under any admission aggregate. -/
theorem depth_probe_pass_signal (rows : List Row) (w : WorkloadMetrics)
    (h : compute_workload_metrics rows = some w)
    (hall : ∀ r ∈ rows, rowKind r = "depth_probe" → depthProbeExpected r = true)
    (hex : ∃ r ∈ rows, rowKind r = "depth_probe") :
    w.depth_probe_rejections "DEPTH_EXCEEDED" = w.total_depth_probe ∧
    0 < w.total_depth_probe ∧
    (∀ k : String, k ≠ "DEPTH_EXCEEDED" → w.depth_probe_rejections k = 0) ∧
    ∀ m : SoakMetrics, msgDepthGuard ∈ suggestions m w := by
  have hf := workloadFold_depth rows initW w h hall
  have hcnt : 0 < depthCount rows := by
    rw [depthCount, List.countP_pos_iff]
    obtain ⟨r, hr, hk⟩ := hex
    exact ⟨r, hr, by simp [hk]⟩
  have h1 : w.total_depth_probe = depthCount rows := by
    rw [hf.1]; simp [initW]
  have h2 : w.depth_probe_rejections "DEPTH_EXCEEDED" = depthCount rows := by
    rw [hf.2.1]; simp [initW, czero]
  have h3 : ∀ k : String, k ≠ "DEPTH_EXCEEDED" → w.depth_probe_rejections k = 0 := by
    intro k hk
    rw [hf.2.2 k hk]; simp [initW, czero]
  refine ⟨by rw [h1, h2], by omega, h3, ?_⟩
  intro m
  have hc4 : 0 < w.total_depth_probe ∧
      w.depth_probe_rejections "DEPTH_EXCEEDED" = w.total_depth_probe :=
    ⟨by omega, by rw [h1, h2]⟩
  rw [suggestions_eq]
  simp only [List.mem_append, List.mem_singleton, List.not_mem_nil, mem_ite_list,
    eq_self_iff_true, and_true, and_false, or_false]
  tauto

/-- Witness: C6 at a stream of ten rejected depth probes. -/
theorem depth_probe_pass_signal_witness :
    ∃ w, compute_workload_metrics tenProbes = some w ∧
      w.depth_probe_rejections "DEPTH_EXCEEDED" = w.total_depth_probe ∧
      0 < w.total_depth_probe ∧
      msgDepthGuard ∈ suggestions (initSoak initE) w := by
  cases h : compute_workload_metrics tenProbes with
  | none =>
    have hs : (compute_workload_metrics tenProbes).isSome = true := by decide
    rw [h] at hs
    exact Bool.noConfusion hs
  | some w =>
    have hh := depth_probe_pass_signal tenProbes w h (by decide) (by decide)
    exact ⟨w, rfl, hh.1, hh.2.1, hh.2.2.2 (initSoak initE)⟩

/-- An absent-or-integer field is in particular either falsy or
`int`-convertible. -/
theorem intOrAbsent_imp (d : Row) (k : String) (h : intOrAbsent d k = true) :
    (!pyTruthy (rowGet d k) || (pyInt (rowGet d k)).isSome) = true := by
  unfold intOrAbsent at h
  unfold rowGet
  rcases hl : List.lookup k d with _ | v
  · simp [hl, pyTruthy]
  · rw [hl] at h
    cases v <;> simp_all [pyInt]

/-- Burst-well-typedness implies the general workload well-typedness. -/
theorem burstRowOk_workloadRowOk (row : Row) (h : burstRowOk row = true) :
    workloadRowOk row = true := by
  rcases hm : asMapping (pyOr (rowGet row "detail") (.jobj [])) with _ | d
  · simp only [burstRowOk, hm] at h
    exact Bool.noConfusion h
  · simp only [burstRowOk, hm, Bool.and_eq_true] at h
    obtain ⟨⟨⟨h1, h2⟩, h3⟩, h4⟩ := h
    simp only [workloadRowOk, hm, List.all_cons, List.all_nil, Bool.and_eq_true,
      Bool.and_true]
    exact ⟨intOrAbsent_imp d _ h1, intOrAbsent_imp d _ h2, intOrAbsent_imp d _ h3,
      intOrAbsent_imp d _ h4⟩

/-- An absent-or-integer detail field passed through `or 0` always
`int`-converts to its claimed value. -/
theorem pyOr_jint (d : Row) (k : String) (h : intOrAbsent d k = true) :
    pyInt (pyOr (rowGet d k) (.jint 0)) = some (jIntOr0 d k) := by
  unfold intOrAbsent at h
  unfold rowGet jIntOr0 pyOr
  rcases hl : List.lookup k d with _ | v
  · simp [hl, pyTruthy, pyInt]
  · rw [hl] at h
    cases v with
    | jnull => simp at h
    | jbool b => simp at h
    | jstr s2 => simp at h
    | jarr xs => simp at h
    | jobj fs => simp at h
    | jint n =>
      by_cases hn : n = 0
      · subst hn; simp [hl, pyTruthy, pyInt]
      · simp [hl, pyTruthy, pyInt, hn]

/-- One workload step adds a record's burst contributions — its granted and
denied slots exactly when it is an over-cap completed run — to the burst
totals. -/
theorem workloadStep_burst_eq (w t : WorkloadMetrics) (row : Row)
    (h : workloadStep w row = some t) (hok : burstRowOk row = true) :
    t.burst_slot_granted = w.burst_slot_granted + burstGrantedContribution row ∧
    t.burst_slot_denied = w.burst_slot_denied + burstDeniedContribution row := by
  rcases hm : asMapping (pyOr (rowGet row "detail") (.jobj [])) with _ | d
  · rw [workloadStep] at h; simp [hm] at h
  simp only [burstRowOk, hm, Bool.and_eq_true] at hok
  obtain ⟨⟨⟨hsa, hrp⟩, hg⟩, hdn⟩ := hok
  have esa := pyOr_jint d "slotAttempts" hsa
  have erp := pyOr_jint d "requestedParallelism" hrp
  have eg := pyOr_jint d "grantedSlots" hg
  have edn := pyOr_jint d "deniedSlots" hdn
  have hbg : burstGrantedContribution row =
      (if rowKind row = "run_completed" ∧
          jIntOr0 d "requestedParallelism" < jIntOr0 d "slotAttempts" then
        jIntOr0 d "grantedSlots"
      else 0) := by
    simp [burstGrantedContribution, hm]
  have hbd : burstDeniedContribution row =
      (if rowKind row = "run_completed" ∧
          jIntOr0 d "requestedParallelism" < jIntOr0 d "slotAttempts" then
        jIntOr0 d "deniedSlots"
      else 0) := by
    simp [burstDeniedContribution, hm]
  rw [workloadStep] at h
  simp only [hm, esa, erp, eg, edn, Option.bind_eq_bind, Option.some_bind] at h
  rw [hbg, hbd]
  split_ifs at h with k1 k2 hgt k3 kok k4 kok2
  · -- run_denied
    simp only [Option.some.injEq] at h
    subst h
    constructor <;> simp [k1]
  · -- run_completed, over cap
    simp only [Option.some.injEq] at h
    subst h
    constructor <;> rw [if_pos ⟨k2, hgt⟩]
  · -- run_completed, at or below cap
    simp only [Option.some.injEq] at h
    subst h
    constructor <;> rw [if_neg (fun hc => hgt hc.2)] <;> simp
  · -- depth_probe, truthy ok
    simp only [Option.some.injEq] at h
    subst h
    constructor <;> simp [k2]
  · -- depth_probe, falsy ok
    simp only [Option.some.injEq] at h
    subst h
    constructor <;> simp [k2]
  · -- gap_probe, truthy ok
    simp only [Option.some.injEq] at h
    subst h
    constructor <;> simp [k2]
  · -- gap_probe, falsy ok
    simp only [Option.some.injEq] at h
    subst h
    constructor <;> simp [k2]
  · -- unknown kind
    simp only [Option.some.injEq] at h
    subst h
    constructor <;> simp [k2]

/-- The workload fold accumulates exactly the burst contributions of a
well-typed stream into the burst totals. -/
theorem workloadFold_burst (rows : List Row) :
    ∀ w : WorkloadMetrics, (∀ r ∈ rows, burstRowOk r = true) →
    ∃ t, workloadFold w rows = some t ∧
      t.burst_slot_granted = w.burst_slot_granted + burstGrantedSpec rows ∧
      t.burst_slot_denied = w.burst_slot_denied + burstDeniedSpec rows := by
  induction rows with
  | nil =>
    intro w _
    exact ⟨w, rfl, by simp [burstGrantedSpec], by simp [burstDeniedSpec]⟩
  | cons r rest ih =>
    intro w hall
    obtain ⟨w2, e⟩ := Option.isSome_iff_exists.mp
      (workloadStep_ok w r (burstRowOk_workloadRowOk r (hall r (by simp))))
    have hb := workloadStep_burst_eq w w2 r e (hall r (by simp))
    obtain ⟨t, ht, htg, htd⟩ := ih w2 (fun x hx => hall x (List.mem_cons_of_mem r hx))
    refine ⟨t, ?_, ?_, ?_⟩
    · rw [workloadFold, e]; exact ht
    · rw [htg, hb.1]
      simp only [burstGrantedSpec, List.map_cons, List.sum_cons]
      omega
    · rw [htd, hb.2]
      simp only [burstDeniedSpec, List.map_cons, List.sum_cons]
      omega

/-- C7: a completed run's granted and denied slots enter the burst totals of
the workload aggregate iff its `slotAttempts` strictly exceeds its
`requestedParallelism` (absent fields read as 0): the totals equal the sums
of exactly those contributions. -/
theorem burst_totals_spec (rows : List Row)
    (h : ∀ r ∈ rows, burstRowOk r = true) :
    ∃ w, compute_workload_metrics rows = some w ∧
      w.burst_slot_granted = burstGrantedSpec rows ∧
      w.burst_slot_denied = burstDeniedSpec rows := by
  obtain ⟨t, ht, hg, hd⟩ := workloadFold_burst rows initW h
  exact ⟨t, ht, by simpa [initW] using hg, by simpa [initW] using hd⟩

/-- Witness: C7 at a stream with one over-cap run (contributing 4 granted and
2 denied slots) and one at-cap run (contributing nothing). -/
theorem burst_totals_spec_witness :
    (∃ w, compute_workload_metrics burstRows = some w ∧
      w.burst_slot_granted = burstGrantedSpec burstRows ∧
      w.burst_slot_denied = burstDeniedSpec burstRows) ∧
    burstGrantedSpec burstRows = 4 ∧ burstDeniedSpec burstRows = 2 :=
  ⟨burst_totals_spec burstRows (by decide), by decide, by decide⟩

/-- Code-point comparison is asymmetric. -/
theorem charListLt_asymm : ∀ a b : List Char, charListLt a b = true → charListLt b a = false := by
  intro a
  induction a with
  | nil =>
    intro b h
    cases b with
    | nil => simp [charListLt] at h
    | cons y ys => simp [charListLt]
  | cons x xs ih =>
    intro b h
    cases b with
    | nil => simp [charListLt] at h
    | cons y ys =>
      by_cases h1 : x.toNat < y.toNat
      · have h2 : ¬ y.toNat < x.toNat := by omega
        simp [charListLt, h1, h2]
      · by_cases h2 : y.toNat < x.toNat
        · simp [charListLt, h1, h2] at h
        · simp only [charListLt, if_neg h1, if_neg h2] at h
          simp only [charListLt, if_neg h2, if_neg h1]
          exact ih ys h

/-- Code-point comparison is transitive. -/
theorem charListLt_trans : ∀ a b c : List Char,
    charListLt a b = true → charListLt b c = true → charListLt a c = true := by
  intro a
  induction a with
  | nil =>
    intro b c hab hbc
    cases b with
    | nil => simp [charListLt] at hab
    | cons y ys =>
      cases c with
      | nil => simp [charListLt] at hbc
      | cons z zs => simp [charListLt]
  | cons x xs ih =>
    intro b c hab hbc
    cases b with
    | nil => simp [charListLt] at hab
    | cons y ys =>
      cases c with
      | nil => simp [charListLt] at hbc
      | cons z zs =>
        by_cases h1 : x.toNat < y.toNat <;> by_cases h2 : y.toNat < z.toNat
        · have h5 : x.toNat < z.toNat := by omega
          simp [charListLt, h5]
        · by_cases h3 : z.toNat < y.toNat
          · simp [charListLt, h2, h3] at hbc
          · have h5 : x.toNat < z.toNat := by omega
            simp [charListLt, h5]
        · by_cases h3 : y.toNat < x.toNat
          · simp [charListLt, h1, h3] at hab
          · have h5 : x.toNat < z.toNat := by omega
            simp [charListLt, h5]
        · by_cases h3 : y.toNat < x.toNat
          · simp [charListLt, h1, h3] at hab
          · by_cases h4 : z.toNat < y.toNat
            · simp [charListLt, h2, h4] at hbc
            · have h5 : ¬ x.toNat < z.toNat := by omega
              have h6 : ¬ z.toNat < x.toNat := by omega
              simp only [charListLt, if_neg h5, if_neg h6]
              simp only [charListLt, if_neg h1, if_neg h3] at hab
              simp only [charListLt, if_neg h2, if_neg h4] at hbc
              exact ih ys zs hab hbc

/-- A list strictly precedes any of its proper extensions. -/
theorem charListLt_append (l : List Char) :
    ∀ t : List Char, t ≠ [] → charListLt l (l ++ t) = true := by
  induction l with
  | nil =>
    intro t ht
    cases t with
    | nil => exact absurd rfl ht
    | cons c cs => simp [charListLt]
  | cons a as ih =>
    intro t ht
    simpa [charListLt] using ih t ht

/-- A successful `isPrefixOf` test exhibits the remainder. -/
theorem isPrefixOf_exists_append : ∀ l m : List Char,
    l.isPrefixOf m = true → ∃ t2, m = l ++ t2 := by
  intro l
  induction l with
  | nil => intro m _; exact ⟨m, rfl⟩
  | cons a as ih =>
    intro m h
    cases m with
    | nil => simp [List.isPrefixOf] at h
    | cons b bs =>
      simp only [List.isPrefixOf, Bool.and_eq_true, beq_iff_eq] at h
      obtain ⟨t2, ht2⟩ := ih bs h.2
      exact ⟨t2, by simp [h.1, ht2]⟩

/-- The key comparison is asymmetric. -/
theorem keyLt_asymm (a b : Nat × String) (h : keyLt a b = true) : keyLt b a = false := by
  by_contra hc
  rw [Bool.not_eq_false] at hc
  simp only [keyLt, Bool.or_eq_true, Bool.and_eq_true, decide_eq_true_eq] at h hc
  rcases h with h | ⟨he, hs⟩ <;> rcases hc with hc | ⟨hce, hcs⟩
  · omega
  · omega
  · omega
  · rw [charListLt_asymm _ _ hs] at hcs
    exact Bool.noConfusion hcs

/-- The key comparison is transitive. -/
theorem keyLt_trans (a b c : Nat × String)
    (hab : keyLt a b = true) (hbc : keyLt b c = true) : keyLt a c = true := by
  simp only [keyLt, Bool.or_eq_true, Bool.and_eq_true, decide_eq_true_eq] at hab hbc ⊢
  rcases hab with h1 | ⟨he1, hs1⟩ <;> rcases hbc with h2 | ⟨he2, hs2⟩
  · exact Or.inl (by omega)
  · exact Or.inl (by omega)
  · exact Or.inl (by omega)
  · exact Or.inr ⟨by omega, charListLt_trans _ _ _ hs1 hs2⟩

/-- Sorted insertion inserts and keeps the other elements. -/
theorem mem_insertSorted (x z : String) : ∀ l : List String,
    z ∈ insertSorted x l ↔ z = x ∨ z ∈ l := by
  intro l
  induction l with
  | nil => simp [insertSorted]
  | cons y ys ih =>
    rw [insertSorted]
    split
    · simp [List.mem_cons]
    · simp only [List.mem_cons, ih]
      tauto

/-- Sorted insertion preserves sortedness by `sort_key`. -/
theorem pairwise_insertSorted (x : String) : ∀ l : List String,
    l.Pairwise sortedKeyLe → (insertSorted x l).Pairwise sortedKeyLe := by
  intro l
  induction l with
  | nil => intro _; simp [insertSorted]
  | cons y ys ih =>
    intro h
    rcases List.pairwise_cons.mp h with ⟨hy, hys⟩
    rw [insertSorted]
    split
    · rename_i hlt
      refine List.Pairwise.cons ?_ h
      intro z hz
      rcases List.mem_cons.mp hz with rfl | hz2
      · exact keyLt_asymm _ _ hlt
      · have hyz := hy z hz2
        by_contra hc
        simp only [sortedKeyLe] at hc hyz
        rw [Bool.not_eq_false] at hc
        have := keyLt_trans _ _ _ hc hlt
        rw [hyz] at this
        exact Bool.noConfusion this
    · rename_i hnlt
      refine List.Pairwise.cons ?_ (ih hys)
      intro z hz
      rcases (mem_insertSorted x z ys).mp hz with rfl | hz2
      · exact Bool.eq_false_iff.mpr hnlt
      · exact hy z hz2

/-- Sorted insertion permutes a cons. -/
theorem perm_insertSorted (x : String) : ∀ l : List String,
    (insertSorted x l).Perm (x :: l) := by
  intro l
  induction l with
  | nil => exact List.Perm.refl _
  | cons y ys ih =>
    rw [insertSorted]
    split
    · exact List.Perm.refl _
    · exact (ih.cons y).trans (List.Perm.swap x y ys)

/-- The insertion-sort fold permutes its accumulator and input. -/
theorem sortPaths_perm_aux : ∀ (names acc : List String),
    (names.foldl (fun a n => insertSorted n a) acc).Perm (acc ++ names) := by
  intro names
  induction names with
  | nil => intro acc; simp
  | cons n ns ih =>
    intro acc
    have h1 := ih (insertSorted n acc)
    have h2 : (insertSorted n acc ++ ns).Perm ((n :: acc) ++ ns) :=
      (perm_insertSorted n acc).append_right ns
    refine h1.trans (h2.trans ?_)
    exact List.perm_middle.symm

/-- The insertion-sort fold preserves sortedness of the accumulator. -/
theorem sortPaths_pairwise_aux : ∀ (names acc : List String),
    acc.Pairwise sortedKeyLe →
    (names.foldl (fun a n => insertSorted n a) acc).Pairwise sortedKeyLe := by
  intro names
  induction names with
  | nil => intro acc h; exact h
  | cons n ns ih => intro acc h; exact ih _ (pairwise_insertSorted n acc h)

set_option maxRecDepth 8000 in
/-- C3 counterexample: the purely-numeric suffix 10000000 meets the sentinel
bucket 9999999, so its file sorts after the non-numeric-suffixed file instead
of before it. -/
theorem admission_event_paths_order_cex :
    admission_event_paths
        ["orchestration-admission.ndjson.10000000", "orchestration-admission.ndjson.bak"] =
      ["orchestration-admission.ndjson.bak", "orchestration-admission.ndjson.10000000"] ∧
    isDigits (lastSuffix "orchestration-admission.ndjson.10000000") = true ∧
    isDigits (lastSuffix "orchestration-admission.ndjson.bak") = false := by
  refine ⟨by decide, by decide, by decide⟩

set_option maxRecDepth 8000 in
/-- C3 (amended): `admission_event_paths` totally orders the glob-matched
names by `sort_key`: the base file has the strictly least key, purely numeric
suffixes sort in ascending numeric order, non-numeric suffixes sort
lexicographically among themselves, and a purely-numeric-suffixed file
precedes every non-numeric-suffixed one whenever its value is below the
sentinel 9999999 — numeric suffixes at or above the sentinel sort with or
after the non-numeric bucket. -/
theorem admission_event_paths_order (names : List String) :
    (admission_event_paths names).Perm (names.filter globAdmission) ∧
    (admission_event_paths names).Pairwise sortedKeyLe ∧
    (∀ name : String, globAdmission name = true → name ≠ baseName →
      keyLt (sortKey baseName) (sortKey name) = true) ∧
    (∀ a b : String, a ≠ baseName → b ≠ baseName →
      isDigits (lastSuffix a) = true → isDigits (lastSuffix b) = true →
      digitsToNat (lastSuffix a) < digitsToNat (lastSuffix b) →
      keyLt (sortKey a) (sortKey b) = true) ∧
    (∀ a b : String, a ≠ baseName → b ≠ baseName →
      isDigits (lastSuffix a) = true → digitsToNat (lastSuffix a) < 9999999 →
      isDigits (lastSuffix b) = false →
      keyLt (sortKey a) (sortKey b) = true) ∧
    (∀ a b : String, a ≠ baseName → b ≠ baseName →
      isDigits (lastSuffix a) = false → isDigits (lastSuffix b) = false →
      charListLt a.data b.data = true →
      keyLt (sortKey a) (sortKey b) = true) := by
  refine ⟨?_, ?_, ?_, ?_, ?_, ?_⟩
  · simpa using sortPaths_perm_aux (names.filter globAdmission) []
  · exact sortPaths_pairwise_aux (names.filter globAdmission) [] (List.Pairwise.nil)
  · intro name hg hne
    obtain ⟨t2, ht2⟩ := isPrefixOf_exists_append baseName.data name.data hg
    have htne : t2 ≠ [] := by
      intro h0
      subst h0
      rw [List.append_nil] at ht2
      exact hne (String.ext ht2)
    have hlt : charListLt baseName.data name.data = true := by
      rw [ht2]; exact charListLt_append _ _ htne
    have hb : sortKey baseName = (0, baseName) := by rw [sortKey]; simp
    rw [hb, sortKey, if_neg hne]
    split
    · rcases Nat.eq_zero_or_pos (digitsToNat (lastSuffix name)) with h0 | h0
      · simp [keyLt, h0, hlt]
      · simp [keyLt, h0]
    · simp [keyLt]
  · intro a b ha hb hda hdb hlt
    rw [sortKey, if_neg ha, if_pos hda, sortKey, if_neg hb, if_pos hdb]
    simp [keyLt, hlt]
  · intro a b ha hb hda hlt hdb
    rw [sortKey, if_neg ha, if_pos hda, sortKey, if_neg hb,
      if_neg (by simp [hdb] : ¬ isDigits (lastSuffix b) = true)]
    simp [keyLt, hlt]
  · intro a b ha hb hda hdb hlt
    rw [sortKey, if_neg ha, if_neg (by simp [hda] : ¬ isDigits (lastSuffix a) = true),
      sortKey, if_neg hb, if_neg (by simp [hdb] : ¬ isDigits (lastSuffix b) = true)]
    simp [keyLt, hlt]

set_option maxRecDepth 8000 in
/-- Witness: C3 (amended) at the spec's rotated-file example and concrete
key comparisons. -/
theorem admission_event_paths_order_witness :
    admission_event_paths ["orchestration-admission.ndjson.10",
        "orchestration-admission.ndjson", "orchestration-admission.ndjson.2"] =
      ["orchestration-admission.ndjson", "orchestration-admission.ndjson.2",
        "orchestration-admission.ndjson.10"] ∧
    keyLt (sortKey baseName) (sortKey "orchestration-admission.ndjson.2") = true ∧
    keyLt (sortKey "orchestration-admission.ndjson.2")
      (sortKey "orchestration-admission.ndjson.10") = true ∧
    keyLt (sortKey "orchestration-admission.ndjson.2")
      (sortKey "orchestration-admission.ndjson.bak") = true := by
  refine ⟨by decide, ?_, ?_, ?_⟩
  · exact (admission_event_paths_order []).2.2.1 "orchestration-admission.ndjson.2"
      (by decide) (by decide)
  · exact (admission_event_paths_order []).2.2.2.1 "orchestration-admission.ndjson.2"
      "orchestration-admission.ndjson.10" (by decide) (by decide) (by decide) (by decide)
      (by decide)
  · exact (admission_event_paths_order []).2.2.2.2.1 "orchestration-admission.ndjson.2"
      "orchestration-admission.ndjson.bak" (by decide) (by decide) (by decide) (by decide)
      (by decide)

/-- Witness: C1 at a stream that begins with unmatched end and release
events, where both decrements are clamped. -/
theorem admission_active_counters_nonneg_witness :
    0 ≤ (admissionEventFold (clampEvents.take 2)).active_runs ∧
    0 ≤ (admissionEventFold (clampEvents.take 2)).active_slots :=
  admission_active_counters_nonneg clampEvents 2

/-- Witness: C9 at a missing file and at a blank plus unparsable line. -/
theorem load_ndjson_keeps_objects_witness :
    load_ndjson parseNone none = [] ∧
    load_ndjson parseNone (some ["", "x"]) = loadSpec parseNone ["", "x"] :=
  ⟨(load_ndjson_keeps_objects parseNone).1,
   (load_ndjson_keeps_objects parseNone).2 ["", "x"]⟩

/-- Witness: C10 at the empty aggregates. -/
theorem suggestions_first_rule_total_witness :
    suggestions (initSoak initE) initW ≠ [] ∧
    (suggestions (initSoak initE) initW).head? =
      some (if 0 < (initSoak initE).run_denials "RUN_CAP_REACHED" then msgRunCapYes
        else msgRunCapNo) ∧
    msgNoUrgent ∉ suggestions (initSoak initE) initW :=
  suggestions_first_rule_total (initSoak initE) initW
